import Mathlib

/-!
Verification development for the coc-format-on-save extension
(statiolake/coc-format-on-save).

The repository contains several revisions of the same extension:

* `src/src/index.ts` — the revision with a zod configuration schema, an
  early format-provider guard inside `format`, and a
  `doActionsBeforeFormat` helper (modelled in namespace `IndexTs`);
* `src/unnamed/part_003` — the revision with per-step timeouts
  (`withTimeout`), a richer configuration schema (`formatterTimeout`,
  `actionTimeout`, `waitAfterAction`, action descriptors with a disabled
  `commandType: 'none'` variant), and the format-provider guard moved
  into the final `doLSPFormattingIfAvailable` step (namespace `Part003`);
* `src/unnamed/part_004` — the revision with the process-wide
  `autoFormatModeForCurrentSession` flag, the `BufWritePre` autocmd and
  the family of `save*` commands (namespace `Part004`);
* `src/unnamed/part_001` — a Lua implementation of the save-mode flag.

The host editor (coc.nvim / neovim) is modelled as an environment that
answers capability queries and resolves (or rejects, or never resolves)
dispatched commands.  Each extension function is embedded as a pure
function from configuration, environment and document URI to the trace
of host-visible events it produces, together with its outcome (normal
return or a propagating exception, as an `Except`) and, where the
revision uses timeouts, the elapsed time in milliseconds.  Log lines are
modelled by their message text (the `${Date.now()}: ` timestamp prefix
that `part_003`'s `log` helper adds is abstracted away, as is JSON
escaping inside `JSON.stringify` output).
-/

/-- Host-visible events emitted by the extension: buffer re-syncs, output
channel log lines, user-facing warning/error notifications, dispatched
coc commands (`commands.executeCommand`) and Vim command lines
(`workspace.nvim.command`), fixed delays (`setTimeout`), capability
queries, and the registrations performed by `activate`. -/
inductive Event where
  | forceSync
  | logLine (msg : String)
  | warnMsg (msg : String)
  | errorMsg (msg : String)
  | execCoc (command : String) (args : List String)
  | execVim (cmdline : String)
  | sleep (ms : Nat)
  | checkFormatProvider (result : Bool)
  | checkOrganizeImportProvider (result : Bool)
  | registerAutocmd (event : String)
  | registerCommand (id : String)
  | updateMemoryConfig
  deriving DecidableEq, Repr

/-- Possible behaviours of an awaited host operation: it resolves after
`t` milliseconds, rejects after `t` milliseconds with a message, or
never settles at all. -/
inductive CmdOutcome where
  | resolves (t : Nat)
  | rejects (t : Nat) (msg : String)
  | neverResolves
  deriving DecidableEq, Repr

/-- Shared by every revision: `doc.uri.endsWith('coc-settings.json')`,
modelled as a character-level suffix test (semantically the suffix check
JavaScript's `endsWith` performs; Lean's own `String.endsWith` is
defined by well-founded recursion and is therefore not reducible by the
kernel). -/
def isCocConfigFile (uri : String) : Bool :=
  "coc-settings.json".data.isSuffixOf uri.data

/-- `JSON.stringify` of a string array (quote escaping inside the
elements is abstracted away). -/
def stringifyArgs (args : List String) : String :=
  "[" ++ String.intercalate "," (args.map (fun s => "\"" ++ s ++ "\"")) ++ "]"

/-- The Vim command line built by every revision:
`` `${command} ${args.join(' ')}` ``.  Note the separating space is
present even for an empty argument list, as in the source. -/
def vimCmdLine (command : String) (args : List String) : String :=
  command ++ " " ++ String.intercalate " " args

namespace Part003

/-- An entry of the `actions` record after zod validation
(`src/unnamed/part_003`, `ConfigSchema`): either the disabled variant
(`commandType: 'none'`) or a coc/vim command with arguments. -/
inductive ActionDescriptor where
  | disabled
  | coc (command : String) (args : List String)
  | vim (command : String) (args : List String)
  deriving DecidableEq, Repr

/-- The resolved configuration of `src/unnamed/part_003`.  The `actions`
record is modelled as an association list in declared (insertion)
order, which is the order `for (const actionName in actions)`
iterates. -/
structure Config where
  enabled : Bool
  sortCocSettingsJson : Bool
  organizeImportWithFormat : Bool
  formatterTimeout : Nat
  actionTimeout : Nat
  waitAfterAction : Nat
  actions : List (String × ActionDescriptor)

/-- The host editor as seen by `part_003`: the two capability queries
and the behaviour of dispatched coc commands and Vim command lines. -/
structure Env where
  hasFormatProvider : Bool
  hasOrganizeImportProvider : Bool
  cocCmd : String → List String → CmdOutcome
  vimCmd : String → CmdOutcome

/-- `withTimeout` of `src/unnamed/part_003` (lines 202-212 of the file):
races the awaited operation against a timer of `timeout` ms that rejects
with `` `timeout reached during ${duringWhat}` ``.  Returns the outcome
of the race together with the elapsed time.  A resolution or rejection
strictly before the timer wins the race; otherwise the timer fires at
`timeout` ms. -/
def withTimeout (timeout : Nat) (duringWhat : String) (outcome : CmdOutcome) :
    Except String Unit × Nat :=
  match outcome with
  | .resolves t =>
      if t < timeout then (.ok (), t)
      else (.error ("timeout reached during " ++ duringWhat), timeout)
  | .rejects t msg =>
      if t < timeout then (.error msg, t)
      else (.error ("timeout reached during " ++ duringWhat), timeout)
  | .neverResolves => (.error ("timeout reached during " ++ duringWhat), timeout)

/-- `JSON.stringify` of a parsed action descriptor, as logged by
`applyConfiguredActions` (key order follows the zod schema declaration
order). -/
def stringifyAction : ActionDescriptor → String
  | .disabled => "\x7b\"commandType\":\"none\"\x7d"
  | .coc c args =>
      "\x7b\"command\":\"" ++ c ++ "\",\"args\":" ++ stringifyArgs args ++
        ",\"commandType\":\"coc\"\x7d"
  | .vim c args =>
      "\x7b\"command\":\"" ++ c ++ "\",\"args\":" ++ stringifyArgs args ++
        ",\"commandType\":\"vim\"\x7d"

/-- Result of one pipeline step: the events it emitted, its outcome
(`.error e` models an exception propagating out of the step), and the
elapsed time in milliseconds. -/
abbrev StepResult := List Event × Except String Unit × Nat

/-- Runs step `a`; if it returns normally, runs step `b`
(sequential `await`s: an exception short-circuits). -/
def seqStep (a b : StepResult) : StepResult :=
  match a with
  | (tr, .ok _, t) =>
      match b with
      | (tr2, r2, t2) => (tr ++ tr2, r2, t + t2)
  | (tr, .error e, t) => (tr, .error e, t)

/-- `sortJsonIfNeeded` of `src/unnamed/part_003`: when the flag is set
and the document is the coc settings file, logs, dispatches
`formatJson --sort-keys` under the action timeout, and catches any
failure with a log line (never propagates an exception). -/
def sortJsonIfNeeded (env : Env) (cfg : Config) (uri : String) : StepResult :=
  if cfg.sortCocSettingsJson && isCocConfigFile uri then
    match withTimeout cfg.actionTimeout "sorting json"
        (env.cocCmd "formatJson" ["--sort-keys"]) with
    | (.ok _, t) =>
        ([.logLine "- sort coc-settings.json",
          .execCoc "formatJson" ["--sort-keys"]], .ok (), t)
    | (.error e, t) =>
        ([.logLine "- sort coc-settings.json",
          .execCoc "formatJson" ["--sort-keys"],
          .logLine ("  ! Failed to sort coc-settings.json: " ++ e)], .ok (), t)
  else ([], .ok (), 0)

/-- `organizeImportIfNeeded` of `src/unnamed/part_003`: when the flag is
set, probes for an organize-imports code-action provider; if present,
logs and dispatches `editor.action.organizeImport` under the action
timeout, letting a failure propagate; if absent, logs and skips. -/
def organizeImportIfNeeded (env : Env) (cfg : Config) : StepResult :=
  if cfg.organizeImportWithFormat then
    if env.hasOrganizeImportProvider then
      match withTimeout cfg.actionTimeout "organizing import"
          (env.cocCmd "editor.action.organizeImport" []) with
      | (r, t) =>
          ([.checkOrganizeImportProvider true,
            .logLine "- organize imports",
            .execCoc "editor.action.organizeImport" []], r, t)
    else
      ([.checkOrganizeImportProvider false,
        .logLine "  ! organizeImport is not supported"], .ok (), 0)
  else ([], .ok (), 0)

/-- The body of one iteration of `applyConfiguredActions`' loop, after
the entry log: dispatch according to the descriptor variant.  A coc
dispatch that returns normally is followed by a `waitAfterAction`
settling delay; a disabled (`'none'`) action only logs. -/
def runAction (env : Env) (cfg : Config) (name : String) :
    ActionDescriptor → StepResult
  | .disabled =>
      ([.logLine ("  ! action " ++ name ++ " is disabled. Skipping")], .ok (), 0)
  | .coc c args =>
      match withTimeout cfg.actionTimeout ("executing coc action: " ++ c)
          (env.cocCmd c args) with
      | (.ok _, t) =>
          ([.execCoc c args, .sleep cfg.waitAfterAction], .ok (),
            t + cfg.waitAfterAction)
      | (.error e, t) => ([.execCoc c args], .error e, t)
  | .vim c args =>
      match withTimeout cfg.actionTimeout ("executing Vim command: " ++ c)
          (env.vimCmd (vimCmdLine c args)) with
      | (r, t) => ([.execVim (vimCmdLine c args)], r, t)

/-- `applyConfiguredActions` of `src/unnamed/part_003`: iterate the
configured actions in declared order; each iteration first logs the
action's JSON, then dispatches per `runAction`.  There is no per-action
catch, so the first failing dispatch aborts the remaining iterations
and propagates its exception. -/
def applyConfiguredActions (env : Env) (cfg : Config) :
    List (String × ActionDescriptor) → StepResult
  | [] => ([], .ok (), 0)
  | (name, a) :: rest =>
      let entry := Event.logLine ("- execute configured action: " ++ stringifyAction a)
      match runAction env cfg name a with
      | (tr, .ok _, t) =>
          match applyConfiguredActions env cfg rest with
          | (tr2, r2, t2) => (entry :: tr ++ tr2, r2, t + t2)
      | (tr, .error e, t) => (entry :: tr, .error e, t)

/-- `doLSPFormattingIfAvailable` of `src/unnamed/part_003` (lines
138-150 of the file): logs, checks for a format provider; if none, logs
and returns normally (skipping only the generic format-document
invocation); otherwise dispatches `editor.action.formatDocument` under
the formatter timeout, letting a failure propagate. -/
def doLSPFormattingIfAvailable (env : Env) (cfg : Config) : StepResult :=
  if env.hasFormatProvider then
    match withTimeout cfg.formatterTimeout "formatting by LSP"
        (env.cocCmd "editor.action.formatDocument" []) with
    | (r, t) =>
        ([.logLine "- execute LSP formatting",
          .checkFormatProvider true,
          .execCoc "editor.action.formatDocument" []], r, t)
  else
    ([.logLine "- execute LSP formatting",
      .checkFormatProvider false,
      .logLine "  ! Format provider not found for current document"], .ok (), 0)

/-- The `try` body of `format` in `src/unnamed/part_003` (lines 214-231
of the file): force-sync, log, then the four steps in sequence, each
`await`ed before the next (configuration resolution is modelled as the
`cfg` input). -/
def formatBody (env : Env) (cfg : Config) (uri : String) : StepResult :=
  seqStep ([Event.forceSync, Event.logLine "start formatting document"], .ok (), 0)
    (seqStep (sortJsonIfNeeded env cfg uri)
      (seqStep (organizeImportIfNeeded env cfg)
        (seqStep (applyConfiguredActions env cfg cfg.actions)
          (doLSPFormattingIfAvailable env cfg))))

/-- `format` of `src/unnamed/part_003`: the body wrapped in
`try/catch/finally` — any exception from the body is caught and
surfaced as an error notification, and the `finally` block force-syncs
and logs unconditionally.  The `Except` component is the outcome seen
by `format`'s caller: always `.ok ()` because of the catch-all. -/
def format (env : Env) (cfg : Config) (uri : String) :
    List Event × Except String Unit :=
  match formatBody env cfg uri with
  | (tr, .ok _, _) =>
      (tr ++ [Event.forceSync, Event.logLine "finish formatting document"], .ok ())
  | (tr, .error e, _) =>
      (tr ++ [Event.errorMsg ("Failed to format document: " ++ e),
              Event.forceSync, Event.logLine "finish formatting document"], .ok ())

/-- An action dispatch succeeds when its underlying host operation
resolves strictly within the action timeout (disabled actions
trivially succeed: they dispatch nothing). -/
def actionSucceeds (env : Env) (cfg : Config) : ActionDescriptor → Bool
  | .disabled => true
  | .coc c args =>
      match env.cocCmd c args with
      | .resolves t => decide (t < cfg.actionTimeout)
      | _ => false
  | .vim c args =>
      match env.vimCmd (vimCmdLine c args) with
      | .resolves t => decide (t < cfg.actionTimeout)
      | _ => false

/-- The log line emitted at the top of each `applyConfiguredActions`
iteration. -/
def actionEntry (a : ActionDescriptor) : Event :=
  .logLine ("- execute configured action: " ++ stringifyAction a)

/-- Is this event a command dispatch (as opposed to a log, sync, delay
or capability query)? -/
def isDispatch : Event → Bool
  | .execCoc _ _ => true
  | .execVim _ => true
  | _ => false

/-- The dispatch event an action descriptor produces, if any. -/
def dispatchEvent : String × ActionDescriptor → Option Event
  | (_, .disabled) => Option.none
  | (_, .coc c args) => some (.execCoc c args)
  | (_, .vim c args) => some (.execVim (vimCmdLine c args))

end Part003

namespace IndexTs

/-- `commandType` of an action in `src/src/index.ts`'s `ConfigSchema`
(this revision has no disabled variant). -/
inductive CommandType where
  | coc
  | vim
  deriving DecidableEq, Repr

/-- An entry of the `actions` record after zod validation in
`src/src/index.ts`. -/
structure IAction where
  command : String
  args : List String
  commandType : CommandType
  deriving DecidableEq, Repr

/-- The resolved configuration of `src/src/index.ts` (this revision has
no timeout fields). -/
structure Config where
  enabled : Bool
  sortCocSettingsJson : Bool
  organizeImportWithFormat : Bool
  actions : List (String × IAction)

/-- The host editor as seen by `src/src/index.ts`: capability queries
and command behaviours (no timeouts in this revision, so a command
either resolves or rejects). -/
structure Env where
  hasFormatProvider : Bool
  hasOrganizeImportProvider : Bool
  cocCmd : String → List String → Except String Unit
  vimCmd : String → Except String Unit

/-- String form of a `commandType`, as interpolated into the action log
line. -/
def ctStr : CommandType → String
  | .coc => "coc"
  | .vim => "vim"

/-- `sortJsonIfNeeded` of `src/src/index.ts`: when the flag is set and
the document is the coc settings file, dispatches
`formatJson --sort-keys` and catches any failure with a warning
notification (never propagates). -/
def sortJsonIfNeeded (env : Env) (cfg : Config) (uri : String) : List Event :=
  if cfg.sortCocSettingsJson && isCocConfigFile uri then
    match env.cocCmd "formatJson" ["--sort-keys"] with
    | .ok _ => [.execCoc "formatJson" ["--sort-keys"]]
    | .error e =>
        [.execCoc "formatJson" ["--sort-keys"],
         .warnMsg ("Failed to sort coc-settings.json: " ++ e)]
  else []

/-- `organizeImportIfNeeded` of `src/src/index.ts`: when the flag is
set, probes for an organize-imports provider; if present, logs and
dispatches `editor.action.organizeImport` (a failure propagates); if
absent, logs and skips. -/
def organizeImportIfNeeded (env : Env) (cfg : Config) :
    List Event × Except String Unit :=
  if cfg.organizeImportWithFormat then
    if env.hasOrganizeImportProvider then
      ([.checkOrganizeImportProvider true,
        .logLine "organize imports",
        .execCoc "editor.action.organizeImport" []],
       env.cocCmd "editor.action.organizeImport" [])
    else
      ([.checkOrganizeImportProvider false,
        .logLine "organizeImport is not supported"], .ok ())
  else ([], .ok ())

/-- `applyActions` of `src/src/index.ts`: iterate the configured actions
in declared order; each iteration logs, then dispatches the command; a
coc dispatch that returns normally is followed by a fixed 500 ms
settling delay.  There is no per-action catch, so the first failing
dispatch aborts the remaining iterations and propagates. -/
def applyActions (env : Env) : List (String × IAction) →
    List Event × Except String Unit
  | [] => ([], .ok ())
  | (name, a) :: rest =>
      let entry := Event.logLine
        ("running action: " ++ name ++ ", command: " ++ a.command ++
          ", args: " ++ stringifyArgs a.args ++ ", commandType: " ++
          ctStr a.commandType)
      match a.commandType with
      | .coc =>
          match env.cocCmd a.command a.args with
          | .ok _ =>
              match applyActions env rest with
              | (tr, r) =>
                  (entry :: Event.execCoc a.command a.args ::
                    Event.sleep 500 :: tr, r)
          | .error e => ([entry, .execCoc a.command a.args], .error e)
      | .vim =>
          match env.vimCmd (vimCmdLine a.command a.args) with
          | .ok _ =>
              match applyActions env rest with
              | (tr, r) => (entry :: Event.execVim (vimCmdLine a.command a.args) :: tr, r)
          | .error e => ([entry, .execVim (vimCmdLine a.command a.args)], .error e)

/-- `doActionsBeforeFormat` of `src/src/index.ts`: re-resolves the
configuration (modelled as the same `cfg` input) and runs the JSON
sort, import organization and configured actions in sequence. -/
def doActionsBeforeFormat (env : Env) (cfg : Config) (uri : String) :
    List Event × Except String Unit :=
  match organizeImportIfNeeded env cfg with
  | (tr2, .ok _) =>
      match applyActions env cfg.actions with
      | (tr3, r3) => (sortJsonIfNeeded env cfg uri ++ tr2 ++ tr3, r3)
  | (tr2, .error e) => (sortJsonIfNeeded env cfg uri ++ tr2, .error e)

/-- The `try` body of `format` in `src/src/index.ts`:
`doActionsBeforeFormat`, then log and dispatch
`editor.action.formatDocument`. -/
def tryBody (env : Env) (cfg : Config) (uri : String) :
    List Event × Except String Unit :=
  match doActionsBeforeFormat env cfg uri with
  | (tr, .ok _) =>
      (tr ++ [Event.logLine "format document",
              Event.execCoc "editor.action.formatDocument" []],
       env.cocCmd "editor.action.formatDocument" [])
  | (tr, .error e) => (tr, .error e)

/-- `format` of `src/src/index.ts` (lines 120-146): the inline JSON
sort, then the format-provider guard (warn and return when no provider),
then a force-sync and the `try/catch/finally` block whose `finally`
force-syncs again.  The guard's early return happens before that block,
so no final re-sync occurs on the no-provider path. -/
def format (env : Env) (cfg : Config) (uri : String) :
    List Event × Except String Unit :=
  let sortTr := sortJsonIfNeeded env cfg uri
  if env.hasFormatProvider then
    match tryBody env cfg uri with
    | (btr, .ok _) =>
        (sortTr ++ [Event.checkFormatProvider true, Event.forceSync] ++ btr ++
          [Event.forceSync], .ok ())
    | (btr, .error e) =>
        (sortTr ++ [Event.checkFormatProvider true, Event.forceSync] ++ btr ++
          [Event.errorMsg ("Failed to format document: " ++ e),
           Event.forceSync], .ok ())
  else
    (sortTr ++ [Event.checkFormatProvider false,
      Event.warnMsg "Format provider not found for current document"], .ok ())

/-- Recognizes a dispatch of the `formatJson` command (with any
arguments). -/
def isSortInvocation : Event → Bool
  | .execCoc command _ => command == "formatJson"
  | _ => false

/-- `activate` of `src/src/index.ts`: if the extension is disabled, log
and return; otherwise run `disableCocFormatting` (an error notification
when `coc.preferences.formatOnSaveFiletypes` is pinned by the user,
then a memory-config override; it always returns `true`) and register
the `format` and `formatOnDemand` commands. -/
def activate (cfg : Config) (formatOnSaveFiletypesSet : Bool) : List Event :=
  if !cfg.enabled then
    [Event.logLine "coc-format-on-save extension is disabled"]
  else
    (if formatOnSaveFiletypesSet then
      [Event.errorMsg ("You are using `coc.preferences.formatOnSaveFiletypes` option " ++
        "in your coc.nvim config file. " ++
        "This prevents coc-format-on-save from working correctly. " ++
        "Also this property has been deprecated in coc.nvim side, " ++
        "please use scoped configuration instead.")]
     else []) ++
    [Event.updateMemoryConfig,
     Event.registerCommand "format-on-save.format",
     Event.registerCommand "format-on-save.formatOnDemand"]

end IndexTs

namespace Part004

/-- The `AutoFormatMode` type of `src/unnamed/part_004`:
`'auto' | 'always' | 'never'`. -/
inductive AutoFormatMode where
  | auto
  | always
  | never
  deriving DecidableEq, Repr

/-- The decision made by `onBufWritePre` in `src/unnamed/part_004`
(lines 165-174): the pipeline runs when
`mode === 'always' || (mode === 'auto' && formatOnSave)`.  The mode is
an `Option` because the module-level variable
`autoFormatModeForCurrentSession` is declared without an initializer,
so before the first `save` call it holds `undefined` (modelled as
`Option.none`) despite its declared type. -/
def onBufWritePreRuns : Option AutoFormatMode → Bool → Bool
  | some .always, _ => true
  | some .auto, formatOnSave => formatOnSave
  | _, _ => false

/-- `save` of `src/unnamed/part_004` (lines 158-163): set the
process-wide mode flag, await the host-level Vim save command (during
which `BufWritePre` handlers observe the flag; the host is modelled as
a function of the flag returning an observation and an outcome), and —
only if that await returns normally — reset the flag to `'auto'`.  An
exception from the host command skips the reset and propagates.
Returns the final flag value, the host's observation, and the outcome
seen by `save`'s caller. -/
def save {α : Type} (mode : AutoFormatMode)
    (hostSave : Option AutoFormatMode → α × Except String Unit)
    (_flag0 : Option AutoFormatMode) :
    Option AutoFormatMode × α × Except String Unit :=
  let flagDuring : Option AutoFormatMode := some mode
  match hostSave flagDuring with
  | (obs, .ok _) => (some .auto, obs, .ok ())
  | (obs, .error e) => (flagDuring, obs, .error e)

/-- The command ids registered by `activate` in `src/unnamed/part_004`
when the extension is enabled. -/
def registeredCommandIds : List String :=
  ["format-on-save.format",
   "format-on-save.save", "format-on-save.forceSave",
   "format-on-save.saveAll", "format-on-save.forceSaveAll",
   "format-on-save.saveWithFormat", "format-on-save.forceSaveWithFormat",
   "format-on-save.saveAllWithFormat", "format-on-save.forceSaveAllWithFormat",
   "format-on-save.saveWithoutFormat", "format-on-save.forceSaveWithoutFormat",
   "format-on-save.saveAllWithoutFormat", "format-on-save.forceSaveAllWithoutFormat"]

/-- `activate` of `src/unnamed/part_004` (lines 19-65): if the
`enabled` flag is false, log that the extension is disabled and return
without registering anything; otherwise run `disableCocFormatting`
(error notification when `coc.preferences.formatOnSaveFiletypes` is
pinned, then a memory-config override; it always returns `true`),
subscribe the `BufWritePre` autocmd and register the commands. -/
def activate (enabled : Bool) (formatOnSaveFiletypesSet : Bool) : List Event :=
  if !enabled then
    [Event.logLine "coc-format-on-save extension is disabled"]
  else
    (if formatOnSaveFiletypesSet then
      [Event.errorMsg ("You use `coc.preferences.formatOnSaveFiletypes` option " ++
        "in your coc.nvim config file. " ++
        "This prevents coc-format-on-save from working correctly. " ++
        "Also this property has been deprecated in coc.nvim side, " ++
        "please use scoped configuration instead.")]
     else []) ++
    [Event.updateMemoryConfig, Event.registerAutocmd "BufWritePre"] ++
    registeredCommandIds.map Event.registerCommand

end Part004

/-! Concrete hosts, configurations and documents used to refute claims
and to exercise the theorems with hypotheses. -/

/-- A host with no format provider but with an organize-imports
provider, where every dispatched command resolves immediately. -/
def c1Env : Part003.Env :=
  ⟨false, true, fun _ _ => CmdOutcome.resolves 0, fun _ => CmdOutcome.resolves 0⟩

/-- A `part_003` configuration with one enabled user action `a`
dispatching the coc command `x`. -/
def c1Cfg : Part003.Config :=
  ⟨true, true, true, 5000, 5000, 500,
   [("a", Part003.ActionDescriptor.coc "x" [])]⟩

/-- A host where the coc command `hang` never resolves and every other
command resolves immediately; a format provider is present. -/
def c2Env : Part003.Env :=
  ⟨true, false,
   fun c _ => if c = "hang" then CmdOutcome.neverResolves else CmdOutcome.resolves 0,
   fun _ => CmdOutcome.resolves 0⟩

/-- A `part_003` configuration with two enabled user actions: `a`
dispatches the never-resolving `hang`, `b` dispatches `ok`. -/
def c2Cfg : Part003.Config :=
  ⟨true, true, false, 5000, 5000, 500,
   [("a", Part003.ActionDescriptor.coc "hang" []),
    ("b", Part003.ActionDescriptor.coc "ok" [])]⟩

/-- A host whose organize-imports command never resolves (so the
organize step raises a timeout error that reaches the pipeline
boundary); everything else resolves immediately. -/
def c7Env : Part003.Env :=
  ⟨true, true,
   fun c _ => if c = "editor.action.organizeImport" then CmdOutcome.neverResolves
              else CmdOutcome.resolves 0,
   fun _ => CmdOutcome.resolves 0⟩

/-- A `part_003` configuration with no user actions. -/
def c7Cfg : Part003.Config := ⟨true, true, true, 5000, 5000, 500, []⟩

/-- The configuration of the claim C6 example: action `a` an enabled
coc command `x`, action `b` disabled. -/
def c6Cfg : Part003.Config :=
  ⟨true, true, true, 5000, 5000, 500,
   [("a", Part003.ActionDescriptor.coc "x" []),
    ("b", Part003.ActionDescriptor.disabled)]⟩

/-- A host where every command resolves immediately and both providers
exist. -/
def c6Env : Part003.Env :=
  ⟨true, true, fun _ _ => CmdOutcome.resolves 0, fun _ => CmdOutcome.resolves 0⟩

/-- An `index.ts` host where every command succeeds and both providers
exist. -/
def c5Env : IndexTs.Env :=
  ⟨true, true, fun _ _ => Except.ok (), fun _ => Except.ok ()⟩

/-- An `index.ts` configuration with the JSON-sort flag set and no user
actions. -/
def c5Cfg : IndexTs.Config := ⟨true, true, true, []⟩

/-- An `index.ts` configuration with the JSON-sort flag set and one
enabled user action. -/
def c9Cfg : IndexTs.Config :=
  ⟨true, true, true, [("a", ⟨"x", [], IndexTs.CommandType.coc⟩)]⟩

/-- The settings-file URI used in witnesses. -/
def settingsUri : String := "file:///home/user/.config/nvim/coc-settings.json"

/-- An `index.ts` host where every command succeeds and both providers
exist (used with `c9Cfg`). -/
def c9Env : IndexTs.Env :=
  ⟨true, true, fun _ _ => Except.ok (), fun _ => Except.ok ()⟩

/-! Helper lemmas about the `part_003` pipeline. -/

/-- The JSON-sort step of `part_003` catches its own failures: it never
propagates an exception. -/
theorem part003_sortJsonIfNeeded_ok (env : Part003.Env) (cfg : Part003.Config)
    (uri : String) :
    (Part003.sortJsonIfNeeded env cfg uri).2.1 = Except.ok () := by
  unfold Part003.sortJsonIfNeeded
  split
  · split <;> rfl
  · rfl

/-- A succeeding action returns normally from `runAction`, and its
dispatch events are exactly the single dispatch its descriptor
prescribes (none for a disabled action). -/
theorem part003_runAction_of_succeeds (env : Part003.Env) (cfg : Part003.Config)
    (name : String) (a : Part003.ActionDescriptor)
    (ha : Part003.actionSucceeds env cfg a = true) :
    (Part003.runAction env cfg name a).2.1 = Except.ok () ∧
    (Part003.runAction env cfg name a).1.filter Part003.isDispatch =
      (Part003.dispatchEvent (name, a)).toList := by
  cases a with
  | disabled => exact ⟨rfl, rfl⟩
  | coc c args =>
      cases hc : env.cocCmd c args with
      | resolves t =>
          have ht : t < cfg.actionTimeout := by
            simp [Part003.actionSucceeds, hc] at ha
            exact ha
          simp [Part003.runAction, Part003.withTimeout, hc, ht,
                Part003.isDispatch, Part003.dispatchEvent]
      | rejects t m => simp [Part003.actionSucceeds, hc] at ha
      | neverResolves => simp [Part003.actionSucceeds, hc] at ha
  | vim c args =>
      cases hc : env.vimCmd (vimCmdLine c args) with
      | resolves t =>
          have ht : t < cfg.actionTimeout := by
            simp [Part003.actionSucceeds, hc] at ha
            exact ha
          simp [Part003.runAction, Part003.withTimeout, hc, ht,
                Part003.isDispatch, Part003.dispatchEvent]
      | rejects t m => simp [Part003.actionSucceeds, hc] at ha
      | neverResolves => simp [Part003.actionSucceeds, hc] at ha

/-- Unfolding one iteration of `applyConfiguredActions` when the action
at the head returns normally: the entry log and the action's events are
emitted and the loop continues with the remaining actions. -/
theorem part003_apply_cons_ok (env : Part003.Env) (cfg : Part003.Config)
    (name : String) (a : Part003.ActionDescriptor)
    (rest : List (String × Part003.ActionDescriptor))
    (ha : (Part003.runAction env cfg name a).2.1 = Except.ok ()) :
    Part003.applyConfiguredActions env cfg ((name, a) :: rest) =
      (Part003.actionEntry a :: (Part003.runAction env cfg name a).1 ++
        (Part003.applyConfiguredActions env cfg rest).1,
       (Part003.applyConfiguredActions env cfg rest).2.1,
       (Part003.runAction env cfg name a).2.2 +
        (Part003.applyConfiguredActions env cfg rest).2.2) := by
  rcases hr : Part003.runAction env cfg name a with ⟨tr, r, t⟩
  rw [hr] at ha
  simp only at ha
  subst ha
  rcases hrest : Part003.applyConfiguredActions env cfg rest with ⟨tr2, r2, t2⟩
  simp [Part003.applyConfiguredActions, hr, hrest, Part003.actionEntry]

/-- Every trace of `format` in `part_003` ends with the `finally`
block's re-sync and closing log line. -/
theorem part003_format_cleanup (env : Part003.Env) (cfg : Part003.Config)
    (uri : String) :
    ∃ p, (Part003.format env cfg uri).1 =
      p ++ [Event.forceSync, Event.logLine "finish formatting document"] := by
  unfold Part003.format
  rcases Part003.formatBody env cfg uri with ⟨tr, r, t⟩
  cases r with
  | ok u => exact ⟨tr, by simp⟩
  | error e =>
      exact ⟨tr ++ [Event.errorMsg ("Failed to format document: " ++ e)], by simp⟩

/-- When the actions before a never-resolving coc action all succeed,
`applyConfiguredActions` runs that prefix in full, logs the hanging
action's entry, dispatches it, and fails with the timeout error after
exactly `actionTimeout` further milliseconds; no later action runs. -/
theorem part003_apply_append_hang (env : Part003.Env) (cfg : Part003.Config)
    (pre post : List (String × Part003.ActionDescriptor))
    (name c : String) (args : List String)
    (hpre : ∀ p ∈ pre, Part003.actionSucceeds env cfg p.2 = true)
    (hhang : env.cocCmd c args = CmdOutcome.neverResolves) :
    Part003.applyConfiguredActions env cfg
        (pre ++ (name, Part003.ActionDescriptor.coc c args) :: post) =
      ((Part003.applyConfiguredActions env cfg pre).1 ++
        [Part003.actionEntry (Part003.ActionDescriptor.coc c args),
         Event.execCoc c args],
       Except.error ("timeout reached during executing coc action: " ++ c),
       (Part003.applyConfiguredActions env cfg pre).2.2 + cfg.actionTimeout) := by
  induction pre with
  | nil =>
      simp only [List.nil_append]
      simp [Part003.applyConfiguredActions, Part003.runAction,
            Part003.withTimeout, hhang, Part003.actionEntry]
      rw [← String.append_assoc]
      congr 1
  | cons p pre ih =>
      obtain ⟨n0, a0⟩ := p
      have ha0 : Part003.actionSucceeds env cfg a0 = true :=
        hpre _ (List.mem_cons_self _ _)
      have h1 := part003_runAction_of_succeeds env cfg n0 a0 ha0
      have e1 := part003_apply_cons_ok env cfg n0 a0
        (pre ++ (name, Part003.ActionDescriptor.coc c args) :: post) h1.1
      have e2 := part003_apply_cons_ok env cfg n0 a0 pre h1.1
      have ihh := ih (fun q hq => hpre q (List.mem_cons_of_mem _ hq))
      rw [List.cons_append, e1, e2, ihh]
      simp [Nat.add_assoc]

/-! Claim theorems. -/

/-- C1 (counterexample): in `part_003`, with no format provider
registered, the organize-imports command and the enabled user action
`x` are still dispatched — contradicting the claim that the pipeline
stops at the format-provider guard before those steps. -/
theorem c1_counterexample :
    c1Env.hasFormatProvider = false ∧
    Event.execCoc "editor.action.organizeImport" [] ∈
      (Part003.format c1Env c1Cfg "file:///w/a.ts").1 ∧
    Event.execCoc "x" [] ∈ (Part003.format c1Env c1Cfg "file:///w/a.ts").1 := by
  decide

/-- C1 (amended): in `part_003` the format-provider guard sits inside
the final `doLSPFormattingIfAvailable` step.  When no provider is
registered and the earlier steps return normally, the pipeline still
runs the JSON sort, the organize-imports step and every configured
action in full; the final step only logs (it does not warn) and skips
nothing but the `editor.action.formatDocument` dispatch, after which
the `finally` block re-syncs. -/
theorem c1_guard_last (env : Part003.Env) (cfg : Part003.Config) (uri : String)
    (hfp : env.hasFormatProvider = false)
    (ho : (Part003.organizeImportIfNeeded env cfg).2.1 = Except.ok ())
    (ha : (Part003.applyConfiguredActions env cfg cfg.actions).2.1 = Except.ok ()) :
    Part003.doLSPFormattingIfAvailable env cfg =
      ([Event.logLine "- execute LSP formatting", Event.checkFormatProvider false,
        Event.logLine "  ! Format provider not found for current document"],
       Except.ok (), 0) ∧
    (Part003.format env cfg uri).1 =
      [Event.forceSync, Event.logLine "start formatting document"] ++
      (Part003.sortJsonIfNeeded env cfg uri).1 ++
      (Part003.organizeImportIfNeeded env cfg).1 ++
      (Part003.applyConfiguredActions env cfg cfg.actions).1 ++
      [Event.logLine "- execute LSP formatting", Event.checkFormatProvider false,
       Event.logLine "  ! Format provider not found for current document",
       Event.forceSync, Event.logLine "finish formatting document"] := by
  have hlsp : Part003.doLSPFormattingIfAvailable env cfg =
      ([Event.logLine "- execute LSP formatting", Event.checkFormatProvider false,
        Event.logLine "  ! Format provider not found for current document"],
       Except.ok (), 0) := by
    simp [Part003.doLSPFormattingIfAvailable, hfp]
  refine ⟨hlsp, ?_⟩
  have hs := part003_sortJsonIfNeeded_ok env cfg uri
  rcases hS : Part003.sortJsonIfNeeded env cfg uri with ⟨trS, rS, tS⟩
  rw [hS] at hs; simp only at hs; subst hs
  rcases hO : Part003.organizeImportIfNeeded env cfg with ⟨trO, rO, tO⟩
  rw [hO] at ho; simp only at ho; subst ho
  rcases hA : Part003.applyConfiguredActions env cfg cfg.actions with ⟨trA, rA, tA⟩
  rw [hA] at ha; simp only at ha; subst ha
  simp [Part003.format, Part003.formatBody, Part003.seqStep, hS, hO, hA, hlsp]

/-- C1 (witness): the amended statement evaluated on the concrete host
`c1Env` (no format provider) and configuration `c1Cfg`. -/
theorem c1_guard_last_witness :
    Part003.doLSPFormattingIfAvailable c1Env c1Cfg =
      ([Event.logLine "- execute LSP formatting", Event.checkFormatProvider false,
        Event.logLine "  ! Format provider not found for current document"],
       Except.ok (), 0) ∧
    (Part003.format c1Env c1Cfg "file:///w/a.ts").1 =
      [Event.forceSync, Event.logLine "start formatting document"] ++
      (Part003.sortJsonIfNeeded c1Env c1Cfg "file:///w/a.ts").1 ++
      (Part003.organizeImportIfNeeded c1Env c1Cfg).1 ++
      (Part003.applyConfiguredActions c1Env c1Cfg c1Cfg.actions).1 ++
      [Event.logLine "- execute LSP formatting", Event.checkFormatProvider false,
       Event.logLine "  ! Format provider not found for current document",
       Event.forceSync, Event.logLine "finish formatting document"] :=
  c1_guard_last c1Env c1Cfg "file:///w/a.ts" (by decide) rfl rfl

/-- C2 (counterexample): in `part_003`, when action `a`'s command
`hang` never resolves, the subsequent enabled action `b` (command
`ok`) is never dispatched — the timeout error aborts the remaining
pipeline instead of letting it proceed, though it is caught and
surfaced at the pipeline boundary. -/
theorem c2_counterexample :
    Event.execCoc "ok" [] ∉ (Part003.format c2Env c2Cfg "file:///w/a.ts").1 ∧
    Event.errorMsg
        "Failed to format document: timeout reached during executing coc action: hang" ∈
      (Part003.format c2Env c2Cfg "file:///w/a.ts").1 := by
  decide

/-- C2 (amended): a configured coc action whose command never resolves
fails with the timeout error after exactly `actionTimeout` further
milliseconds; this failure aborts the remaining configured actions and
the remaining pipeline steps (it propagates out of
`applyConfiguredActions`), but it does not hang the pipeline: `format`
catches it at the pipeline boundary and its `finally` block always
runs, so every `format` trace still ends with the final re-sync. -/
theorem c2_timeout_aborts_rest (env : Part003.Env) (cfg : Part003.Config)
    (pre post : List (String × Part003.ActionDescriptor))
    (name c : String) (args : List String)
    (hpre : ∀ p ∈ pre, Part003.actionSucceeds env cfg p.2 = true)
    (hhang : env.cocCmd c args = CmdOutcome.neverResolves) :
    Part003.applyConfiguredActions env cfg
        (pre ++ (name, Part003.ActionDescriptor.coc c args) :: post) =
      ((Part003.applyConfiguredActions env cfg pre).1 ++
        [Part003.actionEntry (Part003.ActionDescriptor.coc c args),
         Event.execCoc c args],
       Except.error ("timeout reached during executing coc action: " ++ c),
       (Part003.applyConfiguredActions env cfg pre).2.2 + cfg.actionTimeout) ∧
    (∀ env2 cfg2 uri, ∃ p, (Part003.format env2 cfg2 uri).1 =
      p ++ [Event.forceSync, Event.logLine "finish formatting document"]) :=
  ⟨part003_apply_append_hang env cfg pre post name c args hpre hhang,
   fun env2 cfg2 uri => part003_format_cleanup env2 cfg2 uri⟩

/-- C2 (witness): the amended statement evaluated on the concrete host
`c2Env` where `hang` never resolves, with action `b` still pending. -/
theorem c2_timeout_aborts_rest_witness :
    Part003.applyConfiguredActions c2Env c2Cfg
        ([] ++ ("a", Part003.ActionDescriptor.coc "hang" []) ::
          [("b", Part003.ActionDescriptor.coc "ok" [])]) =
      ((Part003.applyConfiguredActions c2Env c2Cfg []).1 ++
        [Part003.actionEntry (Part003.ActionDescriptor.coc "hang" []),
         Event.execCoc "hang" []],
       Except.error ("timeout reached during executing coc action: " ++ "hang"),
       (Part003.applyConfiguredActions c2Env c2Cfg []).2.2 + c2Cfg.actionTimeout) :=
  (c2_timeout_aborts_rest c2Env c2Cfg [] [("b", Part003.ActionDescriptor.coc "ok" [])]
    "a" "hang" [] (by simp) (by decide)).1

/-- C3 (code evaluation): in `part_004`, when the save-mode variable is
still uninitialized (`undefined`, modelled as `Option.none`) — as on
every `BufWritePre` before the first explicit save command — the
pipeline is skipped even though `formatOnSave` is true, while an
explicit `'auto'` mode does fall back to the preference as the claim
describes. -/
theorem c3_undefined_mode_skips :
    Part004.onBufWritePreRuns Option.none true = false ∧
    Part004.onBufWritePreRuns (some Part004.AutoFormatMode.auto) true = true ∧
    Part004.onBufWritePreRuns (some Part004.AutoFormatMode.always) false = true ∧
    Part004.onBufWritePreRuns (some Part004.AutoFormatMode.never) true = false := by
  decide

/-- C4: an explicit save sets the save-mode flag for exactly the
duration of the host-level save: whatever the flag held before, the
`BufWritePre` handler fired by the host save observes `some mode` and
decides by it, and as soon as the host save returns normally the flag
is reset to `'auto'` — so a save with mode `'never'` suppresses the
pipeline for that one save only, and the next pre-save event (flag
`'auto'`) resumes the default `formatOnSave`-driven behaviour. -/
theorem c4_save_mode_scoped (mode : Part004.AutoFormatMode)
    (flag0 : Option Part004.AutoFormatMode) (pref : Bool) :
    Part004.save mode
        (fun fl => ((fl, Part004.onBufWritePreRuns fl pref), Except.ok ())) flag0 =
      (some Part004.AutoFormatMode.auto,
       (some mode, Part004.onBufWritePreRuns (some mode) pref),
       Except.ok ()) ∧
    Part004.onBufWritePreRuns (some Part004.AutoFormatMode.never) pref = false ∧
    Part004.onBufWritePreRuns (some Part004.AutoFormatMode.auto) pref = pref :=
  ⟨rfl, rfl, rfl⟩

/-- C6: iterating the configured actions (all of whose dispatches
succeed), the loop returns normally, the dispatched commands are
exactly those of the enabled actions in declared order (disabled
`'none'` actions dispatch nothing), and every disabled action leaves
its skip log line in the trace. -/
theorem c6_disabled_skipped (env : Part003.Env) (cfg : Part003.Config)
    (acts : List (String × Part003.ActionDescriptor))
    (h : ∀ p ∈ acts, Part003.actionSucceeds env cfg p.2 = true) :
    (Part003.applyConfiguredActions env cfg acts).2.1 = Except.ok () ∧
    (Part003.applyConfiguredActions env cfg acts).1.filter Part003.isDispatch =
      acts.filterMap Part003.dispatchEvent ∧
    ∀ name, (name, Part003.ActionDescriptor.disabled) ∈ acts →
      Event.logLine ("  ! action " ++ name ++ " is disabled. Skipping") ∈
        (Part003.applyConfiguredActions env cfg acts).1 := by
  induction acts with
  | nil =>
      refine ⟨rfl, rfl, ?_⟩
      intro name hn
      simp at hn
  | cons p rest ih =>
      obtain ⟨n0, a0⟩ := p
      have ha0 : Part003.actionSucceeds env cfg a0 = true :=
        h _ (List.mem_cons_self _ _)
      have hr := part003_runAction_of_succeeds env cfg n0 a0 ha0
      have hceq := part003_apply_cons_ok env cfg n0 a0 rest hr.1
      obtain ⟨ihok, ihfil, ihmem⟩ := ih (fun q hq => h q (List.mem_cons_of_mem _ hq))
      rw [hceq]
      refine ⟨by simpa using ihok, ?_, ?_⟩
      · simp only [List.filter_cons, List.filter_append, hr.2, ihfil,
          Part003.actionEntry, Part003.isDispatch]
        cases a0 <;> simp [Part003.dispatchEvent]
      · intro name hn
        rcases List.mem_cons.mp hn with heq | hmem
        · injection heq with h1 h2
          subst h1; subst h2
          simp [Part003.runAction]
        · exact List.mem_cons_of_mem _
            (List.mem_append_right _ (ihmem name hmem))

/-- C6 (witness): the claim's own example, action `a` an enabled coc
command `x` and action `b` disabled: only `a`'s command is dispatched,
and `b`'s skip line is logged. -/
theorem c6_disabled_skipped_witness :
    (Part003.applyConfiguredActions c6Env c6Cfg c6Cfg.actions).1.filter
        Part003.isDispatch =
      c6Cfg.actions.filterMap Part003.dispatchEvent ∧
    Event.logLine ("  ! action " ++ "b" ++ " is disabled. Skipping") ∈
      (Part003.applyConfiguredActions c6Env c6Cfg c6Cfg.actions).1 :=
  ⟨(c6_disabled_skipped c6Env c6Cfg c6Cfg.actions (by decide)).2.1,
   (c6_disabled_skipped c6Env c6Cfg c6Cfg.actions (by decide)).2.2 "b" (by decide)⟩

/-- C7: in `part_003`'s `format`, no exception propagates to the caller
(the outcome is always a normal return), the trace always ends with the
`finally` block's re-sync and closing log, and whenever the body raises
an exception the boundary surfaces it as an error notification. -/
theorem c7_boundary_catch_and_cleanup (env : Part003.Env) (cfg : Part003.Config)
    (uri : String) :
    (Part003.format env cfg uri).2 = Except.ok () ∧
    (∃ p, (Part003.format env cfg uri).1 =
      p ++ [Event.forceSync, Event.logLine "finish formatting document"]) ∧
    ∀ e, (Part003.formatBody env cfg uri).2.1 = Except.error e →
      Event.errorMsg ("Failed to format document: " ++ e) ∈
        (Part003.format env cfg uri).1 := by
  refine ⟨?_, part003_format_cleanup env cfg uri, ?_⟩
  · unfold Part003.format
    rcases Part003.formatBody env cfg uri with ⟨tr, r, t⟩
    cases r <;> simp
  · intro e he
    unfold Part003.format
    rcases hB : Part003.formatBody env cfg uri with ⟨tr, r, t⟩
    rw [hB] at he
    simp only at he
    subst he
    simp

/-- C7 (witness): on the host `c7Env`, whose organize-imports command
never resolves, the organize step's timeout exception is caught at the
boundary and surfaced, while `format` still returns normally. -/
theorem c7_boundary_catch_and_cleanup_witness :
    (Part003.format c7Env c7Cfg "file:///w/a.ts").2 = Except.ok () ∧
    Event.errorMsg
        ("Failed to format document: " ++ "timeout reached during organizing import") ∈
      (Part003.format c7Env c7Cfg "file:///w/a.ts").1 :=
  ⟨(c7_boundary_catch_and_cleanup c7Env c7Cfg "file:///w/a.ts").1,
   (c7_boundary_catch_and_cleanup c7Env c7Cfg "file:///w/a.ts").2.2
     "timeout reached during organizing import" rfl⟩

/-- C8: with `enabled = false`, activation only logs that the extension
is disabled: the `part_004` revision registers no `BufWritePre`
autocmd and no commands, and the `index.ts` revision likewise registers
nothing. -/
theorem c8_disabled_registers_nothing :
    (∀ ft : Bool, Part004.activate false ft =
      [Event.logLine "coc-format-on-save extension is disabled"]) ∧
    (∀ (s o : Bool) (acts : List (String × IndexTs.IAction)) (ft : Bool),
      IndexTs.activate ⟨false, s, o, acts⟩ ft =
        [Event.logLine "coc-format-on-save extension is disabled"]) :=
  ⟨fun _ => rfl, fun _ _ _ _ => rfl⟩

/-- C10: if the awaited host-level save command throws, `save` in
`part_004` propagates the exception without resetting the save-mode
flag: the flag keeps the value set for that save, so a subsequent
pre-save event decides by the stale mode — in particular a stale
`'never'` keeps suppressing the pipeline even when `formatOnSave` is
true. -/
theorem c10_stale_mode_on_error (mode : Part004.AutoFormatMode)
    (flag0 : Option Part004.AutoFormatMode) (e : String) :
    Part004.save mode (fun fl => (fl, Except.error e)) flag0 =
      (some mode, some mode, Except.error e) ∧
    Part004.onBufWritePreRuns (some Part004.AutoFormatMode.never) true = false :=
  ⟨rfl, rfl⟩

/-! Helper lemmas about the `index.ts` pipeline: counting dispatches of
the `formatJson` sort command. -/

/-- The JSON-sort step dispatches the sort command exactly once when
its condition holds, and never otherwise. -/
theorem indexts_countSort_sortJson (env : IndexTs.Env) (cfg : IndexTs.Config)
    (uri : String) :
    (IndexTs.sortJsonIfNeeded env cfg uri).countP IndexTs.isSortInvocation =
      if cfg.sortCocSettingsJson && isCocConfigFile uri then 1 else 0 := by
  by_cases hb : (cfg.sortCocSettingsJson && isCocConfigFile uri) = true
  · cases hc : env.cocCmd "formatJson" ["--sort-keys"] <;>
      simp [IndexTs.sortJsonIfNeeded, hb, hc, IndexTs.isSortInvocation,
            List.countP_cons]
  · simp [IndexTs.sortJsonIfNeeded, hb]

/-- The organize-imports step never dispatches the sort command. -/
theorem indexts_countSort_organize (env : IndexTs.Env) (cfg : IndexTs.Config) :
    (IndexTs.organizeImportIfNeeded env cfg).1.countP IndexTs.isSortInvocation = 0 := by
  cases hb : cfg.organizeImportWithFormat <;>
    cases hp : env.hasOrganizeImportProvider <;>
      simp [IndexTs.organizeImportIfNeeded, hb, hp, IndexTs.isSortInvocation,
            List.countP_cons]

/-- When no configured action names the `formatJson` command, the
action loop never dispatches the sort command. -/
theorem indexts_countSort_applyActions (env : IndexTs.Env)
    (acts : List (String × IndexTs.IAction))
    (h : ∀ p ∈ acts, p.2.command ≠ "formatJson") :
    (IndexTs.applyActions env acts).1.countP IndexTs.isSortInvocation = 0 := by
  induction acts with
  | nil => rfl
  | cons p rest ih =>
      obtain ⟨n0, a0⟩ := p
      have hcmd : a0.command ≠ "formatJson" := h _ (List.mem_cons_self _ _)
      have ihr := ih (fun q hq => h q (List.mem_cons_of_mem _ hq))
      obtain ⟨cmd0, args0, ct0⟩ := a0
      simp only at hcmd
      cases ct0 with
      | coc =>
          cases hc : env.cocCmd cmd0 args0 with
          | ok u =>
              rcases hrest : IndexTs.applyActions env rest with ⟨tr2, r2⟩
              rw [hrest] at ihr
              simp only at ihr
              simp [IndexTs.applyActions, hc, hrest, List.countP_cons,
                    IndexTs.isSortInvocation, hcmd, ihr]
          | error e =>
              simp [IndexTs.applyActions, hc, List.countP_cons,
                    IndexTs.isSortInvocation, hcmd]
      | vim =>
          cases hc : env.vimCmd (vimCmdLine cmd0 args0) with
          | ok u =>
              rcases hrest : IndexTs.applyActions env rest with ⟨tr2, r2⟩
              rw [hrest] at ihr
              simp only at ihr
              simp [IndexTs.applyActions, hc, hrest, List.countP_cons,
                    IndexTs.isSortInvocation, ihr]
          | error e =>
              simp [IndexTs.applyActions, hc, List.countP_cons,
                    IndexTs.isSortInvocation]

/-- `doActionsBeforeFormat` dispatches the sort command exactly once
when the sort condition holds (via its own `sortJsonIfNeeded` call) and
never otherwise. -/
theorem indexts_countSort_doActions (env : IndexTs.Env) (cfg : IndexTs.Config)
    (uri : String)
    (h : ∀ p ∈ cfg.actions, p.2.command ≠ "formatJson") :
    (IndexTs.doActionsBeforeFormat env cfg uri).1.countP IndexTs.isSortInvocation =
      if cfg.sortCocSettingsJson && isCocConfigFile uri then 1 else 0 := by
  have hOc := indexts_countSort_organize env cfg
  rcases hO : IndexTs.organizeImportIfNeeded env cfg with ⟨trO, rO⟩
  rw [hO] at hOc
  simp only at hOc
  cases rO with
  | ok u =>
      have hAc := indexts_countSort_applyActions env cfg.actions h
      rcases hA : IndexTs.applyActions env cfg.actions with ⟨trA, rA⟩
      rw [hA] at hAc
      simp only at hAc
      simp [IndexTs.doActionsBeforeFormat, hO, hA, List.countP_append, hOc, hAc,
            indexts_countSort_sortJson env cfg uri]
  | error e =>
      simp [IndexTs.doActionsBeforeFormat, hO, List.countP_append, hOc,
            indexts_countSort_sortJson env cfg uri]

/-- `format` in `index.ts` dispatches the sort command twice when the
sort condition holds and a format provider exists (once inline before
the guard, once via `doActionsBeforeFormat`), once when the sort
condition holds but the guard aborts, and never when the sort condition
fails. -/
theorem indexts_countSort_format (env : IndexTs.Env) (cfg : IndexTs.Config)
    (uri : String)
    (h : ∀ p ∈ cfg.actions, p.2.command ≠ "formatJson") :
    (IndexTs.format env cfg uri).1.countP IndexTs.isSortInvocation =
      if env.hasFormatProvider then
        (if cfg.sortCocSettingsJson && isCocConfigFile uri then 2 else 0)
      else
        (if cfg.sortCocSettingsJson && isCocConfigFile uri then 1 else 0) := by
  have hd := indexts_countSort_doActions env cfg uri h
  cases hp : env.hasFormatProvider with
  | false =>
      simp [IndexTs.format, hp, List.countP_append, List.countP_cons,
            indexts_countSort_sortJson env cfg uri, IndexTs.isSortInvocation]
  | true =>
      rcases hD : IndexTs.doActionsBeforeFormat env cfg uri with ⟨trD, rD⟩
      rw [hD] at hd
      simp only at hd
      cases rD with
      | ok u =>
          cases hfd : env.cocCmd "editor.action.formatDocument" [] <;>
            simp [IndexTs.format, IndexTs.tryBody, hp, hD, hfd,
                  List.countP_append, List.countP_cons, hd,
                  indexts_countSort_sortJson env cfg uri,
                  IndexTs.isSortInvocation] <;>
              split <;> simp
      | error e =>
          simp [IndexTs.format, IndexTs.tryBody, hp, hD,
                List.countP_append, List.countP_cons, hd,
                indexts_countSort_sortJson env cfg uri,
                IndexTs.isSortInvocation]
          split <;> simp

/-- When the sort condition holds, the inline JSON-sort is the very
first thing `format` does: its dispatch event heads the step's trace. -/
theorem indexts_sortJson_cons (env : IndexTs.Env) (cfg : IndexTs.Config)
    (uri : String)
    (hb : (cfg.sortCocSettingsJson && isCocConfigFile uri) = true) :
    ∃ rest, IndexTs.sortJsonIfNeeded env cfg uri =
      Event.execCoc "formatJson" ["--sort-keys"] :: rest := by
  cases hc : env.cocCmd "formatJson" ["--sort-keys"] with
  | ok u => exact ⟨[], by simp [IndexTs.sortJsonIfNeeded, hb, hc]⟩
  | error e =>
      exact ⟨[Event.warnMsg ("Failed to sort coc-settings.json: " ++ e)],
        by simp [IndexTs.sortJsonIfNeeded, hb, hc]⟩

/-- When the sort condition holds, the first event of `format`'s trace
is the sort dispatch — in particular it precedes the format-provider
check. -/
theorem indexts_format_head (env : IndexTs.Env) (cfg : IndexTs.Config)
    (uri : String)
    (hb : (cfg.sortCocSettingsJson && isCocConfigFile uri) = true) :
    (IndexTs.format env cfg uri).1.head? =
      some (Event.execCoc "formatJson" ["--sort-keys"]) := by
  obtain ⟨rest, hrest⟩ := indexts_sortJson_cons env cfg uri hb
  cases hp : env.hasFormatProvider with
  | false => simp [IndexTs.format, hp, hrest]
  | true =>
      rcases hT : IndexTs.tryBody env cfg uri with ⟨trT, rT⟩
      cases rT <;> simp [IndexTs.format, hp, hrest, hT]

/-- C5: in `index.ts`, the `formatJson --sort-keys` command is
dispatched (at least once) exactly when `sortCocSettingsJson` is true
and the document URI ends with `coc-settings.json` (assuming no
configured action itself names the `formatJson` command); and in that
case the very first event of the pipeline is the sort dispatch, which
therefore precedes the format-provider check. -/
theorem c5_sort_before_guard (env : IndexTs.Env) (cfg : IndexTs.Config)
    (uri : String)
    (h : ∀ p ∈ cfg.actions, p.2.command ≠ "formatJson") :
    ((IndexTs.format env cfg uri).1.countP IndexTs.isSortInvocation ≠ 0 ↔
      (cfg.sortCocSettingsJson = true ∧ isCocConfigFile uri = true)) ∧
    ((cfg.sortCocSettingsJson && isCocConfigFile uri) = true →
      (IndexTs.format env cfg uri).1.head? =
        some (Event.execCoc "formatJson" ["--sort-keys"])) := by
  refine ⟨?_, fun hb => indexts_format_head env cfg uri hb⟩
  rw [indexts_countSort_format env cfg uri h]
  by_cases hb : (cfg.sortCocSettingsJson && isCocConfigFile uri) = true
  · rw [hb]
    obtain ⟨h1, h2⟩ := (Bool.and_eq_true _ _).mp hb
    cases env.hasFormatProvider <;> simp [h1, h2]
  · have hb2 : (cfg.sortCocSettingsJson && isCocConfigFile uri) = false :=
      Bool.not_eq_true _ ▸ eq_false_of_ne_true hb
    rw [hb2]
    constructor
    · intro hne
      exfalso
      cases env.hasFormatProvider <;> simp at hne
    · intro ⟨h1, h2⟩
      exfalso
      exact hb (by simp [h1, h2])

/-- C5 (witness): the iff and the head-position property evaluated on a
host with a format provider, the default configuration and the settings
file itself. -/
theorem c5_sort_before_guard_witness :
    (IndexTs.format c5Env c5Cfg settingsUri).1.countP IndexTs.isSortInvocation ≠ 0 ∧
    (IndexTs.format c5Env c5Cfg settingsUri).1.head? =
      some (Event.execCoc "formatJson" ["--sort-keys"]) :=
  ⟨((c5_sort_before_guard c5Env c5Cfg settingsUri (by decide)).1).mpr (by decide),
   (c5_sort_before_guard c5Env c5Cfg settingsUri (by decide)).2 (by decide)⟩

/-- C9: in `index.ts`, for a document whose URI ends with
`coc-settings.json`, with `sortCocSettingsJson` true and a format
provider present (and no configured action itself named `formatJson`),
one `format` invocation dispatches `formatJson --sort-keys` exactly
twice: once inline in `format` and once more via
`doActionsBeforeFormat`'s call to `sortJsonIfNeeded`. -/
theorem c9_settings_sorted_twice (env : IndexTs.Env) (cfg : IndexTs.Config)
    (uri : String)
    (hflag : cfg.sortCocSettingsJson = true)
    (huri : isCocConfigFile uri = true)
    (hfp : env.hasFormatProvider = true)
    (h : ∀ p ∈ cfg.actions, p.2.command ≠ "formatJson") :
    (IndexTs.format env cfg uri).1.countP IndexTs.isSortInvocation = 2 := by
  rw [indexts_countSort_format env cfg uri h, hfp]
  simp [hflag, huri]

/-- C9 (witness): the double dispatch evaluated on a concrete host and
configuration for the settings file. -/
theorem c9_settings_sorted_twice_witness :
    (IndexTs.format c9Env c9Cfg settingsUri).1.countP IndexTs.isSortInvocation = 2 :=
  c9_settings_sorted_twice c9Env c9Cfg settingsUri (by decide) (by decide)
    (by decide) (by decide)
